import Mathlib

/-!
Shallow embedding of the order-and-promotions engine of the e-commerce
platform: inventory counters, order creation (POST /), order status
updates (PATCH /:orderId/status), payment (POST /:orderId/pay) with the
three-level referral commission cascade, the flash-sale purchase route
(POST /flash-sale/:saleId/purchase), the group-buying join route
(POST /group-buying/:activityId/join) and the coupon application logic
inside order creation.  Money is modelled as exact rationals, machine
time as a natural-number instant, identifiers as naturals.  The HTTP
auth/permission layer is out of scope (requests are modelled as issued
by an actor that passes the permission checks, e.g. an admin for status
updates); everything below the permission checks is translated
statement by statement from the source.
-/

deriving instance DecidableEq for Except

attribute [local semireducible] Rat.mul Rat.add Rat.sub Rat.inv

namespace ECommerce

/-- Per-product inventory counters (src/utils/database.js product shape).
Counters are integers because the source never guards the decrements in
the release/confirm paths, so they can in principle go negative. -/
structure Inventory where
  total : Int
  available : Int
  reserved : Int
deriving Repr, DecidableEq

/-- Product price tiers (price.selling / price.distributor / price.retailer). -/
structure Price where
  selling : ℚ
  distributor : ℚ
  retailer : ℚ
deriving Repr, DecidableEq

/-- Product: the fields the order engine reads and writes. -/
structure Product where
  price : Price
  inventory : Inventory
deriving Repr, DecidableEq

/-- User roles that occur in the routes under study. -/
inductive Role
  | admin
  | supplier
  | distributor
  | retailer
  | customer
deriving Repr, DecidableEq

/-- Referral-relevant user profile fields (profile.points, profile.wallet,
profile.referrerId). -/
structure User where
  points : Int
  wallet : ℚ
  referrerId : Option Nat
deriving Repr, DecidableEq

/-- Order status values used by the order routes. -/
inductive OrderStatus
  | pending
  | paid
  | shipped
  | delivered
  | cancelled
  | refunded
deriving Repr, DecidableEq

/-- Payment status values used by the order routes. -/
inductive PaymentStatus
  | unpaid
  | paid
  | refunded
deriving Repr, DecidableEq

/-- One stored order line item (orderItems entry in POST /). -/
structure OrderItem where
  productId : Nat
  price : ℚ
  quantity : Nat
  total : ℚ
deriving Repr, DecidableEq

/-- Order amount summary (amount.subtotal / amount.discount / amount.total). -/
structure Amount where
  subtotal : ℚ
  discount : ℚ
  total : ℚ
deriving Repr, DecidableEq

/-- Stored order: the fields the engine reads back on later transitions. -/
structure Order where
  userId : Nat
  items : List OrderItem
  amount : Amount
  status : OrderStatus
  paymentStatus : PaymentStatus
deriving Repr, DecidableEq

/-- Coupon types supported by the order-creation route. -/
inductive CouponType
  | percentage
  | fixed
deriving Repr, DecidableEq

/-- Coupon record.  maxDiscount is optional; the source reads it as
`coupon.maxDiscount || Infinity`, so an absent value and a stored 0 both
behave as "no cap" (JavaScript falsiness), which the model mirrors in
`computeDiscount`. -/
structure Coupon where
  code : Nat
  ctype : CouponType
  value : ℚ
  minAmount : ℚ
  maxDiscount : Option ℚ
  maxUsage : Nat
  usageCount : Nat
  active : Bool
deriving Repr, DecidableEq

/-- One requested line item of an order-creation call. -/
structure CreateItem where
  productId : Nat
  quantity : Nat
deriving Repr, DecidableEq

/-- The engine's mutable state: the global maps of src/utils/database.js
restricted to the fields the claims are about. -/
structure State where
  users : Nat → Option User
  products : Nat → Option Product
  orders : Nat → Option Order
  coupons : List Coupon

/-- Point update of an id-keyed map (database.xxx.set). -/
def setMap {α : Type} (m : Nat → Option α) (k : Nat) (v : α) : Nat → Option α :=
  fun k2 => if k2 = k then some v else m k2

/-- Errors returned by the order routes. -/
inductive OrdErr
  | emptyOrder
  | productNotFound (productId : Nat)
  | insufficientStock (productId : Nat)
  | orderNotFound
  | alreadyPaid
deriving Repr, DecidableEq

/-- Role-based unit price selection (POST / line 1347-1349):
distributor price for distributors, retailer price for retailers,
selling price for everyone else. -/
def rolePrice (role : Role) (p : Price) : ℚ :=
  match role with
  | .distributor => p.distributor
  | .retailer => p.retailer
  | _ => p.selling

/-- Reservation of one item (POST / lines 1365-1366):
available -= qty, reserved += qty. -/
def reserveItem (inv : Inventory) (qty : Nat) : Inventory :=
  { inv with
      available := inv.available - (qty : Int)
      reserved := inv.reserved + (qty : Int) }

/-- The order-creation reservation loop (POST / lines 1331-1367).  Walks
the requested items in order; a missing product or insufficient
available stock aborts with an error, RETURNING THE PRODUCTS MAP MUTATED
SO FAR — exactly as the source, which `return`s from inside the loop
without undoing earlier reservations.  On success returns the built
order items and the accumulated subtotal. -/
def reserveLoop (role : Role) (products : Nat → Option Product) :
    List CreateItem → Except OrdErr (List OrderItem × ℚ) × (Nat → Option Product)
  | [] => (.ok ([], 0), products)
  | item :: rest =>
    match products item.productId with
    | none => (.error (.productNotFound item.productId), products)
    | some p =>
      if p.inventory.available < (item.quantity : Int) then
        (.error (.insufficientStock item.productId), products)
      else
        let unitPrice := rolePrice role p.price
        let products1 := setMap products item.productId
          { p with inventory := reserveItem p.inventory item.quantity }
        match reserveLoop role products1 rest with
        | (.ok (ois, amt), products2) =>
          (.ok ({ productId := item.productId, price := unitPrice,
                  quantity := item.quantity,
                  total := unitPrice * (item.quantity : ℚ) } :: ois,
                unitPrice * (item.quantity : ℚ) + amt), products2)
        | (.error e, products2) => (.error e, products2)

/-- Discount computation (POST / lines 1377-1381).  Percentage type:
min(subtotal*value/100, maxDiscount || Infinity) — so an absent or ZERO
maxDiscount means no cap.  Fixed type: min(value, subtotal). -/
def computeDiscount (c : Coupon) (subtotal : ℚ) : ℚ :=
  match c.ctype with
  | .percentage =>
    match c.maxDiscount with
    | some m => if m = 0 then subtotal * c.value / 100
                else min (subtotal * c.value / 100) m
    | none => subtotal * c.value / 100
  | .fixed => min c.value subtotal

/-- Coupon lookup-and-consume (POST / lines 1372-1390).  Finds the first
active coupon with the requested code; if the subtotal meets minAmount,
computes the discount and increments usageCount — the source performs NO
usageCount < maxUsage check.  Returns (discount, updated coupon list). -/
def redeemCoupon (code : Nat) (subtotal : ℚ) :
    List Coupon → ℚ × List Coupon
  | [] => (0, [])
  | c :: rest =>
    if c.code = code ∧ c.active = true then
      if c.minAmount ≤ subtotal then
        (computeDiscount c subtotal, { c with usageCount := c.usageCount + 1 } :: rest)
      else (0, c :: rest)
    else
      let r := redeemCoupon code subtotal rest
      (r.1, c :: r.2)

/-- Order creation, POST / (lines 1307-1460): reject empty item lists,
run the reservation loop (keeping its partial mutations on failure),
apply the coupon if supplied, store the order with
amount = {subtotal, discount, total = subtotal - discount},
status pending, paymentStatus unpaid. -/
def createOrder (st : State) (role : Role) (userId : Nat) (items : List CreateItem)
    (couponCode : Option Nat) (orderId : Nat) : Except OrdErr Order × State :=
  if items = [] then (.error .emptyOrder, st)
  else
    match reserveLoop role st.products items with
    | (.error e, products1) => (.error e, { st with products := products1 })
    | (.ok (orderItems, subtotal), products1) =>
      let dc : ℚ × List Coupon :=
        match couponCode with
        | none => (0, st.coupons)
        | some code => redeemCoupon code subtotal st.coupons
      let order : Order :=
        { userId := userId, items := orderItems,
          amount := { subtotal := subtotal, discount := dc.1,
                      total := subtotal - dc.1 },
          status := .pending, paymentStatus := .unpaid }
      (.ok order,
       { st with products := products1, coupons := dc.2,
                 orders := setMap st.orders orderId order })

/-- Inventory release on cancel/refund (PATCH /:orderId/status lines
1620-1628): for each item whose product exists,
available += qty, reserved -= qty — with no check that reserved ≥ qty. -/
def releaseItems (products : Nat → Option Product) (items : List OrderItem) :
    Nat → Option Product :=
  items.foldl (fun ps it =>
    match ps it.productId with
    | none => ps
    | some p =>
      setMap ps it.productId
        { p with inventory :=
            { p.inventory with
                available := p.inventory.available + (it.quantity : Int)
                reserved := p.inventory.reserved - (it.quantity : Int) } }) products

/-- Inventory confirmation on pending→paid (PATCH /:orderId/status lines
1629-1638): for each item whose product exists,
reserved -= qty, total -= qty — with no check that reserved ≥ qty. -/
def confirmItems (products : Nat → Option Product) (items : List OrderItem) :
    Nat → Option Product :=
  items.foldl (fun ps it =>
    match ps it.productId with
    | none => ps
    | some p =>
      setMap ps it.productId
        { p with inventory :=
            { p.inventory with
                reserved := p.inventory.reserved - (it.quantity : Int)
                total := p.inventory.total - (it.quantity : Int) } }) products

/-- Status update, PATCH /:orderId/status (lines 1570-1671), as executed
by an actor passing the permission check (e.g. admin).  The source
performs NO transition-table validation: the requested status is always
applied.  Inventory: release on cancelled/refunded, confirm on paid when
the old status was pending, nothing otherwise. -/
def transitionOrder (st : State) (orderId : Nat) (target : OrderStatus) :
    Except OrdErr Order × State :=
  match st.orders orderId with
  | none => (.error .orderNotFound, st)
  | some o =>
    let o1 : Order := { o with status := target }
    let products1 :=
      if target = .cancelled ∨ target = .refunded then
        releaseItems st.products o.items
      else if target = .paid ∧ o.status = .pending then
        confirmItems st.products o.items
      else st.products
    (.ok o1, { st with orders := setMap st.orders orderId o1, products := products1 })

/-- In-place wallet credit of one user (referrer.profile.wallet += c):
a no-op when the user does not exist. -/
def creditWallet (users : Nat → Option User) (k : Nat) (amount : ℚ) :
    Nat → Option User :=
  match users k with
  | none => users
  | some u => setMap users k { u with wallet := u.wallet + amount }

/-- Three-level commission cascade (POST /:orderId/pay lines 1721-1746).
Walks the buyer's referrerId chain: level-1 wallet += 5% of total,
level-2 += 3%, level-3 += 1%; an absent referrerId or a missing user at
any hop terminates the walk. -/
def cascadeCommission (users : Nat → Option User) (referrerId : Option Nat)
    (total : ℚ) : Nat → Option User :=
  match referrerId with
  | none => users
  | some r1 =>
    match users r1 with
    | none => users
    | some u1 =>
      let users1 := creditWallet users r1 (total * 5 / 100)
      match u1.referrerId with
      | none => users1
      | some r2 =>
        match users1 r2 with
        | none => users1
        | some u2 =>
          let users2 := creditWallet users1 r2 (total * 3 / 100)
          match u2.referrerId with
          | none => users2
          | some r3 =>
            match users2 r3 with
            | none => users2
            | some _ => creditWallet users2 r3 (total * 1 / 100)

/-- Loyalty points earned on payment (POST /:orderId/pay line 1718):
Math.floor(total * 0.01), i.e. the floor of 1% of the order total. -/
def pointsEarned (total : ℚ) : Int := ⌊total / 100⌋

/-- Payment, POST /:orderId/pay (lines 1674-1764), issued by the order's
buyer (the route rejects anyone else).  Rejects if paymentStatus is
already paid; otherwise sets paymentStatus and status to paid, credits
the buyer floor(1% of total) points, and runs the commission cascade up
the buyer's referrer chain.  The route touches NO product inventory. -/
def payOrder (st : State) (orderId : Nat) : Except OrdErr (Order × Int) × State :=
  match st.orders orderId with
  | none => (.error .orderNotFound, st)
  | some o =>
    if o.paymentStatus = .paid then (.error .alreadyPaid, st)
    else
      let o1 : Order := { o with paymentStatus := .paid, status := .paid }
      let pts := pointsEarned o.amount.total
      let users2 :=
        match st.users o.userId with
        | none => st.users
        | some buyer =>
          cascadeCommission
            (setMap st.users o.userId { buyer with points := buyer.points + pts })
            buyer.referrerId o.amount.total
      (.ok (o1, pts),
       { st with orders := setMap st.orders orderId o1, users := users2 })

/-- One engine operation on the shared state, for reasoning about
arbitrary interleavings of the order routes. -/
inductive Op
  | create (role : Role) (userId : Nat) (items : List CreateItem)
      (couponCode : Option Nat) (orderId : Nat)
  | transition (orderId : Nat) (target : OrderStatus)
  | pay (orderId : Nat)

/-- Execute one operation, keeping only the state (responses dropped). -/
def step (st : State) : Op → State
  | .create role userId items couponCode orderId =>
    (createOrder st role userId items couponCode orderId).2
  | .transition orderId target => (transitionOrder st orderId target).2
  | .pay orderId => (payOrder st orderId).2

/-- Execute a sequence of operations. -/
def run (st : State) : List Op → State
  | [] => st
  | op :: rest => run (step st op) rest

/-- Flash sale record (POST /flash-sale lines 379-394).  participants is
the userId → purchased-quantity map, absent entries read as 0
(`participants.get(id) || 0`). -/
structure FlashSale where
  productId : Nat
  originalPrice : ℚ
  salePrice : ℚ
  inventory : Nat
  soldCount : Nat
  startTime : Nat
  endTime : Nat
  limitPerUser : Nat
  participants : Nat → Nat

/-- Errors of the flash-sale purchase route. -/
inductive FsErr
  | promotionNotStarted
  | promotionEnded
  | insufficientStock
  | quotaExceeded
deriving Repr, DecidableEq

/-- The order a successful flash-sale purchase stores (lines 469-489):
subtotal = salePrice*qty, discount = (originalPrice-salePrice)*qty,
total = salePrice*qty. -/
def mkFlashSaleOrder (fs : FlashSale) (userId qty : Nat) : Order :=
  { userId := userId,
    items := [{ productId := fs.productId, price := fs.salePrice, quantity := qty,
                total := fs.salePrice * (qty : ℚ) }],
    amount := { subtotal := fs.salePrice * (qty : ℚ),
                discount := (fs.originalPrice - fs.salePrice) * (qty : ℚ),
                total := fs.salePrice * (qty : ℚ) },
    status := .pending, paymentStatus := .unpaid }

/-- Flash-sale purchase, POST /flash-sale/:saleId/purchase (lines
418-510): reject outside [startTime, endTime]; reject if
soldCount + qty > inventory; reject if purchased + qty > limitPerUser;
otherwise create the order, soldCount += qty, purchased += qty. -/
def purchaseFlashSale (fs : FlashSale) (now userId qty : Nat) :
    Except FsErr (Order × FlashSale) :=
  if now < fs.startTime then .error .promotionNotStarted
  else if fs.endTime < now then .error .promotionEnded
  else if fs.inventory < fs.soldCount + qty then .error .insufficientStock
  else if fs.limitPerUser < fs.participants userId + qty then .error .quotaExceeded
  else .ok (mkFlashSaleOrder fs userId qty,
    { fs with
        soldCount := fs.soldCount + qty
        participants := fun u =>
          if u = userId then fs.participants userId + qty else fs.participants u })

/-- Execute a sequence of flash-sale purchase attempts
(now, userId, qty); failed attempts leave the sale unchanged. -/
def runPurchases (fs : FlashSale) : List (Nat × Nat × Nat) → FlashSale
  | [] => fs
  | (now, userId, qty) :: rest =>
    match purchaseFlashSale fs now userId qty with
    | .ok r => runPurchases r.2 rest
    | .error _ => runPurchases fs rest

/-- Group-buying group status. -/
inductive GroupStatus
  | recruiting
  | completed
  | expired
deriving Repr, DecidableEq

/-- One group participant (userId, quantity). -/
structure Participant where
  userId : Nat
  quantity : Nat
deriving Repr, DecidableEq

/-- Group-buying group (join route lines 251-261). -/
structure Group where
  requiredSize : Nat
  currentSize : Nat
  participants : List Participant
  status : GroupStatus
deriving Repr, DecidableEq

/-- Errors of the group-join route. -/
inductive GbErr
  | groupUnavailable
  | alreadyJoined
deriving Repr, DecidableEq

/-- The order created for one participant on group completion (lines
292-314): subtotal = groupPrice*qty,
discount = (originalPrice-groupPrice)*qty, total = groupPrice*qty. -/
def mkGroupOrder (groupPrice originalPrice : ℚ) (productId : Nat)
    (p : Participant) : Order :=
  { userId := p.userId,
    items := [{ productId := productId, price := groupPrice, quantity := p.quantity,
                total := groupPrice * (p.quantity : ℚ) }],
    amount := { subtotal := groupPrice * (p.quantity : ℚ),
                discount := (originalPrice - groupPrice) * (p.quantity : ℚ),
                total := groupPrice * (p.quantity : ℚ) },
    status := .pending, paymentStatus := .unpaid }

/-- Join an existing group, POST /group-buying/:activityId/join (lines
240-331): the group must be recruiting; a user already in the group is
rejected; the participant is appended and currentSize incremented; when
currentSize ≥ requiredSize the group becomes completed and one order
plus one notification (modelled by recipient id) is created per
participant. -/
def joinGroup (groupPrice originalPrice : ℚ) (productId : Nat) (g : Group)
    (userId qty : Nat) : Except GbErr (Group × List Order × List Nat) :=
  if g.status ≠ .recruiting then .error .groupUnavailable
  else if (g.participants.find? (fun p => p.userId = userId)).isSome then
    .error .alreadyJoined
  else
    let g1 : Group :=
      { g with participants := g.participants ++ [Participant.mk userId qty],
               currentSize := g.currentSize + 1 }
    if g1.requiredSize ≤ g1.currentSize then
      .ok ({ g1 with status := .completed },
           g1.participants.map (mkGroupOrder groupPrice originalPrice productId),
           g1.participants.map (fun p => p.userId))
    else .ok (g1, [], [])

/-- Execute a sequence of join attempts (userId, qty), accumulating the
orders and notifications created along the way. -/
def runJoins (groupPrice originalPrice : ℚ) (productId : Nat)
    (g : Group) (orders : List Order) (notifs : List Nat) :
    List (Nat × Nat) → Group × List Order × List Nat
  | [] => (g, orders, notifs)
  | (userId, qty) :: rest =>
    match joinGroup groupPrice originalPrice productId g userId qty with
    | .ok r => runJoins groupPrice originalPrice productId r.1
        (orders ++ r.2.1) (notifs ++ r.2.2) rest
    | .error _ => runJoins groupPrice originalPrice productId g orders notifs rest

/-- The part of the claimed counter invariant that the source maintains:
available ≥ 0 and available + reserved ≤ total. -/
def GoodInv (inv : Inventory) : Prop :=
  0 ≤ inv.available ∧ inv.available + inv.reserved ≤ inv.total

/-- Every stored product has well-formed counters. -/
def InvProd (products : Nat → Option Product) : Prop :=
  ∀ pid p, products pid = some p → GoodInv p.inventory

/-- A product with one unit in stock, used by the concrete scenarios. -/
def oneUnitProduct : Product :=
  { price := { selling := 10, distributor := 9, retailer := 8 },
    inventory := { total := 1, available := 1, reserved := 0 } }

/-- Initial state holding only product 1 with one available unit. -/
def oneProductState : State :=
  { users := fun _ => none,
    products := fun pid => if pid = 1 then some oneUnitProduct else none,
    orders := fun _ => none,
    coupons := [] }

/-- Create an order for one unit of product 1, pay it through the status
route, then refund it — a sequence made only of the operations named by
the claim, and all transitions taken are listed in the spec's transition
table (pending → paid, paid → refunded). -/
def payThenRefundOps : List Op :=
  [.create .customer 7 [{ productId := 1, quantity := 1 }] none 1,
   .transition 1 .paid,
   .transition 1 .refunded]

/-- Two products: product 1 has one available unit, product 2 has none. -/
def twoProductState : State :=
  { users := fun _ => none,
    products := fun pid =>
      if pid = 1 then some oneUnitProduct
      else if pid = 2 then
        some { price := { selling := 20, distributor := 20, retailer := 20 },
               inventory := { total := 3, available := 0, reserved := 0 } }
      else none,
    orders := fun _ => none,
    coupons := [] }

/-- A delivered order over one unit of product 1. -/
def deliveredOrder : Order :=
  { userId := 7,
    items := [{ productId := 1, price := 10, quantity := 1, total := 10 }],
    amount := { subtotal := 10, discount := 0, total := 10 },
    status := .delivered, paymentStatus := .paid }

/-- State holding just the delivered order (id 1). -/
def deliveredOrderState : State :=
  { users := fun _ => none,
    products := fun _ => none,
    orders := fun oid => if oid = 1 then some deliveredOrder else none,
    coupons := [] }

/-- A buyer with no referrer, used by the concrete payment scenarios. -/
def plainBuyer : User := { points := 0, wallet := 0, referrerId := none }

/-- A pending, unpaid order of buyer 7 over one reserved unit of
product 1 with total 100. -/
def pendingOrder : Order :=
  { userId := 7,
    items := [{ productId := 1, price := 100, quantity := 1, total := 100 }],
    amount := { subtotal := 100, discount := 0, total := 100 },
    status := .pending, paymentStatus := .unpaid }

/-- A product with one unit reserved, as after the order creation that
produced pendingOrder. -/
def reservedProduct : Product :=
  { price := { selling := 100, distributor := 100, retailer := 100 },
    inventory := { total := 5, available := 3, reserved := 1 } }

/-- State with buyer 7, product 1 (one unit reserved), pending order 1. -/
def pendingOrderState : State :=
  { users := fun uid => if uid = 7 then some plainBuyer else none,
    products := fun pid => if pid = 1 then some reservedProduct else none,
    orders := fun oid => if oid = 1 then some pendingOrder else none,
    coupons := [] }

/-- Buyer 10; referral chain 10 → 11 → 12 → 13 → 14 (the cascade must
stop after the third hop, so user 14's wallet must stay untouched). -/
def chainBuyer : User := { points := 0, wallet := 0, referrerId := some 11 }

/-- Level-1 referrer (user 11). -/
def referrer1 : User := { points := 0, wallet := 100, referrerId := some 12 }

/-- Level-2 referrer (user 12). -/
def referrer2 : User := { points := 0, wallet := 200, referrerId := some 13 }

/-- Level-3 referrer (user 13), who has a further referrer (user 14). -/
def referrer3 : User := { points := 0, wallet := 300, referrerId := some 14 }

/-- A fourth-level ancestor (user 14) that must earn nothing. -/
def referrer4 : User := { points := 0, wallet := 400, referrerId := none }

/-- A pending, unpaid order of buyer 10 with total 1000. -/
def chainOrder : Order :=
  { userId := 10,
    items := [{ productId := 1, price := 1000, quantity := 1, total := 1000 }],
    amount := { subtotal := 1000, discount := 0, total := 1000 },
    status := .pending, paymentStatus := .unpaid }

/-- State with the 5-user referral chain and pending order 1. -/
def chainState : State :=
  { users := fun uid =>
      if uid = 10 then some chainBuyer
      else if uid = 11 then some referrer1
      else if uid = 12 then some referrer2
      else if uid = 13 then some referrer3
      else if uid = 14 then some referrer4
      else none,
    products := fun _ => none,
    orders := fun oid => if oid = 1 then some chainOrder else none,
    coupons := [] }

/-- The flash-sale safety invariant: sold within cap, every user within
the per-user limit. -/
def FsInv (fs : FlashSale) : Prop :=
  fs.soldCount ≤ fs.inventory ∧ ∀ u, fs.participants u ≤ fs.limitPerUser

/-- A concrete flash sale: inventory 5, window [10, 20], limit 1 per user. -/
def saleA : FlashSale :=
  { productId := 1, originalPrice := 100, salePrice := 80, inventory := 5,
    soldCount := 0, startTime := 10, endTime := 20, limitPerUser := 1,
    participants := fun _ => 0 }

/-- saleA after user 7 bought one unit. -/
def saleA1 : FlashSale :=
  { saleA with soldCount := 1, participants := fun u => if u = 7 then 1 else 0 }

/-- A newly opened group with required size n (join route, open-group
branch). -/
def freshGroup (n : Nat) : Group :=
  { requiredSize := n, currentSize := 0, participants := [], status := .recruiting }

/-- Invariant tying a group's state to the orders and notifications the
join route has produced for it so far. -/
def GbInv (groupPrice originalPrice : ℚ) (productId : Nat)
    (g : Group) (orders : List Order) (notifs : List Nat) : Prop :=
  g.currentSize = g.participants.length ∧
  (g.status = .recruiting →
    orders = [] ∧ notifs = [] ∧ g.currentSize < g.requiredSize) ∧
  (g.status = .completed →
    g.currentSize = g.requiredSize ∧
    orders = g.participants.map (mkGroupOrder groupPrice originalPrice productId) ∧
    notifs = g.participants.map (fun p => p.userId)) ∧
  (g.status = .expired → orders = [] ∧ notifs = [])

/-- A percentage coupon (code 5): 50%, capped at 50, min amount 100,
max usage 1 — the spec's concrete clamp example. -/
def couponHalf : Coupon :=
  { code := 5, ctype := .percentage, value := 50, minAmount := 100,
    maxDiscount := some 50, maxUsage := 1, usageCount := 0, active := true }

/-- An uncapped percentage coupon (code 6) with value 150 (> 100%). -/
def couponOver : Coupon :=
  { code := 6, ctype := .percentage, value := 150, minAmount := 0,
    maxDiscount := none, maxUsage := 1000, usageCount := 0, active := true }

/-- A product priced 200 with ample stock. -/
def richProduct : Product :=
  { price := { selling := 200, distributor := 200, retailer := 200 },
    inventory := { total := 100, available := 100, reserved := 0 } }

/-- State with the 200-priced product and both coupons. -/
def couponState : State :=
  { users := fun _ => none,
    products := fun pid => if pid = 1 then some richProduct else none,
    orders := fun _ => none,
    coupons := [couponHalf, couponOver] }

/-- A product priced 1000 with ample stock. -/
def grandProduct : Product :=
  { price := { selling := 1000, distributor := 1000, retailer := 1000 },
    inventory := { total := 100, available := 100, reserved := 0 } }

/-- State with the 1000-priced product and the clamp coupon. -/
def couponClampState : State :=
  { users := fun _ => none,
    products := fun pid => if pid = 1 then some grandProduct else none,
    orders := fun _ => none,
    coupons := [couponHalf] }

/-- Order produced by a successful flash-sale purchase of saleA. -/
def saleAOrder : Order := mkFlashSaleOrder saleA 7 1

theorem invProd_setMap {products : Nat → Option Product} {k : Nat} {v : Product}
    (h : InvProd products) (hv : GoodInv v.inventory) :
    InvProd (setMap products k v) := by
  intro pid p hp
  by_cases hpk : pid = k
  · subst hpk
    simp only [setMap, if_pos rfl] at hp
    cases hp
    exact hv
  · simp only [setMap, if_neg hpk] at hp
    exact h pid p hp

theorem reserveLoop_invProd (role : Role) :
    ∀ (items : List CreateItem) (products : Nat → Option Product),
      InvProd products → InvProd (reserveLoop role products items).2 := by
  intro items
  induction items with
  | nil => intro products h; simpa [reserveLoop] using h
  | cons item rest ih =>
    intro products h
    rw [reserveLoop]
    cases hp : products item.productId with
    | none => simpa using h
    | some p =>
      by_cases hav : p.inventory.available < (item.quantity : Int)
      · simpa [hav] using h
      · have hgood : GoodInv (reserveItem p.inventory item.quantity) := by
          obtain ⟨hg1, hg2⟩ := h item.productId p hp
          refine ⟨?_, ?_⟩ <;> simp [reserveItem] <;> omega
        have h1 : InvProd (setMap products item.productId
            { p with inventory := reserveItem p.inventory item.quantity }) :=
          invProd_setMap h hgood
        have h2 := ih _ h1
        simp only [if_neg hav]
        rcases hrec : reserveLoop role (setMap products item.productId
            { p with inventory := reserveItem p.inventory item.quantity }) rest with ⟨e, products2⟩
        rw [hrec] at h2
        cases e with
        | ok v => exact h2
        | error e => exact h2

theorem releaseItems_invProd :
    ∀ (items : List OrderItem) (products : Nat → Option Product),
      InvProd products → InvProd (releaseItems products items) := by
  intro items
  induction items with
  | nil => intro products h; simpa [releaseItems] using h
  | cons it rest ih =>
    intro products h
    have hstep : releaseItems products (it :: rest) =
        releaseItems (match products it.productId with
          | none => products
          | some p => setMap products it.productId
              { p with inventory :=
                  { p.inventory with
                      available := p.inventory.available + (it.quantity : Int)
                      reserved := p.inventory.reserved - (it.quantity : Int) } }) rest := by
      simp [releaseItems]
    rw [hstep]
    cases hp : products it.productId with
    | none => exact ih _ h
    | some p =>
      apply ih
      apply invProd_setMap h
      have := h it.productId p hp
      unfold GoodInv at *
      constructor <;> simp <;> omega

theorem confirmItems_invProd :
    ∀ (items : List OrderItem) (products : Nat → Option Product),
      InvProd products → InvProd (confirmItems products items) := by
  intro items
  induction items with
  | nil => intro products h; simpa [confirmItems] using h
  | cons it rest ih =>
    intro products h
    have hstep : confirmItems products (it :: rest) =
        confirmItems (match products it.productId with
          | none => products
          | some p => setMap products it.productId
              { p with inventory :=
                  { p.inventory with
                      reserved := p.inventory.reserved - (it.quantity : Int)
                      total := p.inventory.total - (it.quantity : Int) } }) rest := by
      simp [confirmItems]
    rw [hstep]
    cases hp : products it.productId with
    | none => exact ih _ h
    | some p =>
      apply ih
      apply invProd_setMap h
      have := h it.productId p hp
      unfold GoodInv at *
      constructor <;> simp <;> omega

theorem createOrder_invProd (st : State) (role : Role) (userId : Nat)
    (items : List CreateItem) (couponCode : Option Nat) (orderId : Nat)
    (h : InvProd st.products) :
    InvProd (createOrder st role userId items couponCode orderId).2.products := by
  unfold createOrder
  by_cases hempty : items = []
  · simpa [hempty] using h
  · simp only [if_neg hempty]
    have hres := reserveLoop_invProd role items st.products h
    rcases hr : reserveLoop role st.products items with ⟨e, products1⟩
    rw [hr] at hres
    cases e with
    | ok v => exact hres
    | error e => exact hres

theorem transitionOrder_invProd (st : State) (orderId : Nat) (target : OrderStatus)
    (h : InvProd st.products) :
    InvProd (transitionOrder st orderId target).2.products := by
  unfold transitionOrder
  cases ho : st.orders orderId with
  | none => exact h
  | some o =>
    simp only
    by_cases h1 : target = .cancelled ∨ target = .refunded
    · simpa [h1] using releaseItems_invProd o.items st.products h
    · simp only [if_neg h1]
      by_cases h2 : target = .paid ∧ o.status = .pending
      · simpa [h2] using confirmItems_invProd o.items st.products h
      · simpa [h2] using h

theorem payOrder_invProd (st : State) (orderId : Nat) (h : InvProd st.products) :
    InvProd (payOrder st orderId).2.products := by
  unfold payOrder
  cases ho : st.orders orderId with
  | none => exact h
  | some o =>
    simp only
    by_cases hp : o.paymentStatus = .paid
    · simpa [hp] using h
    · simpa [hp] using h

theorem step_invProd (st : State) (op : Op) (h : InvProd st.products) :
    InvProd (step st op).products := by
  cases op with
  | create role userId items couponCode orderId =>
    exact createOrder_invProd st role userId items couponCode orderId h
  | transition orderId target => exact transitionOrder_invProd st orderId target h
  | pay orderId => exact payOrder_invProd st orderId h

theorem run_invProd (ops : List Op) :
    ∀ (st : State), InvProd st.products → InvProd (run st ops).products := by
  induction ops with
  | nil => intro st h; simpa [run] using h
  | cons op rest ih =>
    intro st h
    rw [run]
    exact ih _ (step_invProd st op h)

theorem setMap_same {α : Type} (m : Nat → Option α) (k : Nat) (v : α) :
    setMap m k v k = some v := by
  simp [setMap]

theorem setMap_other {α : Type} (m : Nat → Option α) (k : Nat) (v : α)
    (k2 : Nat) (h : k2 ≠ k) : setMap m k v k2 = m k2 := by
  simp [setMap, h]

/-- C1 counterexample: after creating a one-unit order (reserve), marking
it paid through the status route (confirm: reserved -= 1, total -= 1) and
then refunding it (release: reserved -= 1 again, with no reserved ≥ qty
check), product 1's reserved counter is -1, refuting the claimed
invariant reserved ≥ 0. -/
theorem c1_counterexample_reserved_negative :
    ((run oneProductState payThenRefundOps).products 1).map
        (fun p => p.inventory.reserved) = some (-1) := by
  decide

/-- C1 (amended): for every product and every sequence of order
operations (order creation with reservation, status transitions
including paid/cancelled/refunded, payments), the inventory counters
satisfy available + reserved ≤ total and available ≥ 0.  The third
claimed conjunct, reserved ≥ 0, is violated by the code (see the
counterexample): the release path on cancel/refund has no
reserved-sufficiency check, so e.g. refunding an order after it was paid
releases its reservation a second time and drives reserved negative. -/
theorem c1_inventory_counters_invariant (st : State) (ops : List Op)
    (h : ∀ pid p, st.products pid = some p →
      0 ≤ p.inventory.available ∧
      p.inventory.available + p.inventory.reserved ≤ p.inventory.total) :
    ∀ pid p, (run st ops).products pid = some p →
      0 ≤ p.inventory.available ∧
      p.inventory.available + p.inventory.reserved ≤ p.inventory.total :=
  run_invProd ops st h

/-- C1 witness: the initial one-product state satisfies the hypothesis,
and the invariant then holds after the concrete pay-then-refund run. -/
theorem c1_inventory_counters_invariant_witness :
    (∀ pid p, oneProductState.products pid = some p →
      0 ≤ p.inventory.available ∧
      p.inventory.available + p.inventory.reserved ≤ p.inventory.total) ∧
    (∀ pid p, (run oneProductState payThenRefundOps).products pid = some p →
      0 ≤ p.inventory.available ∧
      p.inventory.available + p.inventory.reserved ≤ p.inventory.total) := by
  have h : ∀ pid p, oneProductState.products pid = some p →
      0 ≤ p.inventory.available ∧
      p.inventory.available + p.inventory.reserved ≤ p.inventory.total := by
    intro pid p hp
    by_cases h1 : pid = 1
    · subst h1
      rw [show oneProductState.products 1 = some oneUnitProduct from rfl] at hp
      cases hp
      exact ⟨by decide, by decide⟩
    · rw [show oneProductState.products pid = if pid = 1 then some oneUnitProduct else none
          from rfl, if_neg h1] at hp
      cases hp
  exact ⟨h, c1_inventory_counters_invariant oneProductState payThenRefundOps h⟩

/-- C2: order creation with two line items where the second item's
reservation fails for insufficient stock returns InsufficientStock, but
the first item's reservation is NOT released: product 1's counters end
at available 0 / reserved 1 although they were available 1 / reserved 0
before the call — the reservation loop returns from inside the loop
without any rollback, contradicting the spec's rollback-atomicity
requirement (no partial reservation left behind). -/
theorem c2_partial_reservation_left_behind :
    (createOrder twoProductState .customer 7
        [{ productId := 1, quantity := 1 }, { productId := 2, quantity := 1 }]
        none 1).1 = .error (.insufficientStock 2) ∧
    ((createOrder twoProductState .customer 7
        [{ productId := 1, quantity := 1 }, { productId := 2, quantity := 1 }]
        none 1).2.products 1).map
      (fun p => (p.inventory.available, p.inventory.reserved)) = some (0, 1) ∧
    (twoProductState.products 1).map
      (fun p => (p.inventory.available, p.inventory.reserved)) = some (1, 0) := by
  refine ⟨by decide, by decide, by decide⟩

/-- C5: the status-update route performs no transition-table validation:
a transition request on a DELIVERED order to another status (here
pending, which no row of the table allows) succeeds and mutates the
order instead of failing with InvalidTransition. -/
theorem c5_delivered_transition_accepted :
    (transitionOrder deliveredOrderState 1 .pending).1 =
      .ok { deliveredOrder with status := .pending } ∧
    ((transitionOrder deliveredOrderState 1 .pending).2.orders 1).map
      (fun o => o.status) = some .pending := by
  refine ⟨by decide, by decide⟩

theorem points_map_setMap (users : Nat → Option User) (k : Nat) (u v : User)
    (hpts : v.points = u.points) (h : users k = some u) (uid : Nat) :
    ((setMap users k v) uid).map (fun x => x.points) =
      (users uid).map (fun x => x.points) := by
  by_cases hk : uid = k
  · subst hk; rw [setMap_same, h]; simp [hpts]
  · rw [setMap_other _ _ _ _ hk]

/-- A wallet credit never changes any user's points. -/
theorem creditWallet_points (users : Nat → Option User) (k : Nat) (amount : ℚ)
    (uid : Nat) :
    ((creditWallet users k amount) uid).map (fun u => u.points) =
      (users uid).map (fun u => u.points) := by
  unfold creditWallet
  cases h : users k with
  | none => rfl
  | some u =>
    exact points_map_setMap users k u { u with wallet := u.wallet + amount } rfl h uid

/-- The commission cascade only moves wallets: it never changes any
user's points. -/
theorem cascadeCommission_points (users : Nat → Option User) (rid : Option Nat)
    (total : ℚ) (uid : Nat) :
    ((cascadeCommission users rid total) uid).map (fun u => u.points) =
      (users uid).map (fun u => u.points) := by
  unfold cascadeCommission
  cases rid with
  | none => rfl
  | some r1 =>
    dsimp only
    cases h1 : users r1 with
    | none => rfl
    | some u1 =>
      dsimp only
      cases h2 : u1.referrerId with
      | none => exact creditWallet_points users r1 _ uid
      | some r2 =>
        dsimp only
        cases h3 : creditWallet users r1 (total * 5 / 100) r2 with
        | none => exact creditWallet_points users r1 _ uid
        | some u2 =>
          dsimp only
          cases h4 : u2.referrerId with
          | none =>
            exact (creditWallet_points _ r2 _ uid).trans
              (creditWallet_points users r1 _ uid)
          | some r3 =>
            dsimp only
            cases h5 : creditWallet (creditWallet users r1 (total * 5 / 100)) r2
                (total * 3 / 100) r3 with
            | none =>
              exact (creditWallet_points _ r2 _ uid).trans
                (creditWallet_points users r1 _ uid)
            | some u3 =>
              exact (creditWallet_points _ r3 _ uid).trans
                ((creditWallet_points _ r2 _ uid).trans
                  (creditWallet_points users r1 _ uid))

/-- C3 counterexample: paying a pending order through POST /:orderId/pay
succeeds (and credits floor(1% of 100) = 1 point), but leaves product
1's inventory counters completely unchanged — reserved stays 1 and total
stays 5, although the claim says reserved and total are each decremented
by the item quantity on every pending → paid transition performed by
PayOrder. -/
theorem c3_counterexample_pay_leaves_inventory :
    (payOrder pendingOrderState 1).1 =
      .ok ({ pendingOrder with status := .paid, paymentStatus := .paid }, 1) ∧
    (payOrder pendingOrderState 1).2.products 1 = some reservedProduct ∧
    reservedProduct.inventory.reserved = 1 ∧ reservedProduct.inventory.total = 5 := by
  refine ⟨by decide, by decide, by decide, by decide⟩

/-- C3 (amended): the two effects the claim bundles live on two distinct
routes.  POST /:orderId/pay credits the buyer floor(1% of amount.total)
loyalty points and never touches any product's inventory; the inventory
confirm (reserved and total each decremented by the item quantity)
happens only on the pending → paid transition performed through PATCH
/:orderId/status, which in turn credits no points (it never touches the
users map). -/
theorem c3_pay_points_and_patch_confirm :
    (∀ st orderId, (payOrder st orderId).2.products = st.products) ∧
    (∀ st orderId o buyer, st.orders orderId = some o → o.paymentStatus ≠ .paid →
      st.users o.userId = some buyer →
      (payOrder st orderId).1 =
        .ok ({ o with status := .paid, paymentStatus := .paid },
             pointsEarned o.amount.total) ∧
      ((payOrder st orderId).2.users o.userId).map (fun u => u.points) =
        some (buyer.points + pointsEarned o.amount.total)) ∧
    (∀ st orderId target, (transitionOrder st orderId target).2.users = st.users) ∧
    (∀ st orderId o, st.orders orderId = some o → o.status = .pending →
      (transitionOrder st orderId .paid).2.products = confirmItems st.products o.items) ∧
    (∀ st orderId o it p, st.orders orderId = some o → o.status = .pending →
      o.items = [it] → st.products it.productId = some p →
      ((transitionOrder st orderId .paid).2.products it.productId).map
        (fun q => (q.inventory.reserved, q.inventory.total)) =
      some (p.inventory.reserved - (it.quantity : Int),
            p.inventory.total - (it.quantity : Int))) := by
  refine ⟨?_, ?_, ?_, ?_, ?_⟩
  · intro st orderId
    unfold payOrder
    cases h : st.orders orderId with
    | none => rfl
    | some o =>
      by_cases hp : o.paymentStatus = .paid <;> simp [hp]
  · intro st orderId o buyer ho hp hb
    refine ⟨?_, ?_⟩
    · unfold payOrder
      rw [ho]
      simp only [if_neg hp, hb]
    · unfold payOrder
      rw [ho]
      simp only [if_neg hp, hb]
      rw [cascadeCommission_points, setMap_same]
      rfl
  · intro st orderId target
    unfold transitionOrder
    cases h : st.orders orderId with
    | none => rfl
    | some o => rfl
  · intro st orderId o ho hpending
    unfold transitionOrder
    rw [ho]
    simp [hpending]
  · intro st orderId o it p ho hpending hitems hprod
    unfold transitionOrder
    rw [ho]
    simp only [hpending]
    simp [hitems, confirmItems, hprod, setMap_same]

/-- C3 witness: on the concrete pending-order state, paying order 1
returns the paid order with 1 point earned and the buyer's points become
1, while the status-route transition to paid leaves product 1 with
reserved 0 and total 4. -/
theorem c3_pay_points_and_patch_confirm_witness :
    (payOrder pendingOrderState 1).1 =
      .ok ({ pendingOrder with status := .paid, paymentStatus := .paid },
           pointsEarned pendingOrder.amount.total) ∧
    ((payOrder pendingOrderState 1).2.users 7).map (fun u => u.points) =
      some (plainBuyer.points + pointsEarned pendingOrder.amount.total) ∧
    ((transitionOrder pendingOrderState 1 .paid).2.products 1).map
      (fun q => (q.inventory.reserved, q.inventory.total)) = some (0, 4) := by
  have h2 := (c3_pay_points_and_patch_confirm.2.1) pendingOrderState 1 pendingOrder
    plainBuyer rfl (by decide) rfl
  have h5 := (c3_pay_points_and_patch_confirm.2.2.2.2) pendingOrderState 1 pendingOrder
    { productId := 1, price := 100, quantity := 1, total := 100 }
    reservedProduct rfl rfl rfl rfl
  refine ⟨h2.1, h2.2, ?_⟩
  rw [h5]
  decide

/-- Under a three-deep chain of pairwise-distinct, existing referrers,
the cascade is exactly three wallet overwrites. -/
theorem cascadeCommission_chain (users : Nat → Option User) (total : ℚ)
    (r1 r2 r3 : Nat) (u1 u2 u3 : User)
    (hu1 : users r1 = some u1) (hr2 : u1.referrerId = some r2)
    (hu2 : users r2 = some u2) (hr3 : u2.referrerId = some r3)
    (hu3 : users r3 = some u3)
    (hne12 : r2 ≠ r1) (hne13 : r3 ≠ r1) (hne23 : r3 ≠ r2) :
    cascadeCommission users (some r1) total =
      setMap (setMap (setMap users r1 { u1 with wallet := u1.wallet + total * 5 / 100 })
        r2 { u2 with wallet := u2.wallet + total * 3 / 100 })
        r3 { u3 with wallet := u3.wallet + total * 1 / 100 } := by
  have e1 : creditWallet users r1 (total * 5 / 100) =
      setMap users r1 { u1 with wallet := u1.wallet + total * 5 / 100 } := by
    unfold creditWallet; rw [hu1]
  have hx2 : setMap users r1 { u1 with wallet := u1.wallet + total * 5 / 100 } r2 =
      some u2 := by
    rw [setMap_other _ _ _ _ hne12, hu2]
  have e2 : creditWallet
      (setMap users r1 { u1 with wallet := u1.wallet + total * 5 / 100 }) r2
      (total * 3 / 100) =
      setMap (setMap users r1 { u1 with wallet := u1.wallet + total * 5 / 100 })
        r2 { u2 with wallet := u2.wallet + total * 3 / 100 } := by
    unfold creditWallet; rw [hx2]
  have hx3 : setMap (setMap users r1 { u1 with wallet := u1.wallet + total * 5 / 100 })
      r2 { u2 with wallet := u2.wallet + total * 3 / 100 } r3 = some u3 := by
    rw [setMap_other _ _ _ _ hne23, setMap_other _ _ _ _ hne13, hu3]
  have e3 : creditWallet
      (setMap (setMap users r1 { u1 with wallet := u1.wallet + total * 5 / 100 })
        r2 { u2 with wallet := u2.wallet + total * 3 / 100 }) r3
      (total * 1 / 100) =
      setMap (setMap (setMap users r1 { u1 with wallet := u1.wallet + total * 5 / 100 })
        r2 { u2 with wallet := u2.wallet + total * 3 / 100 })
        r3 { u3 with wallet := u3.wallet + total * 1 / 100 } := by
    unfold creditWallet; rw [hx3]
  have hcw2 : creditWallet users r1 (total * 5 / 100) r2 = some u2 := by
    rw [e1]; exact hx2
  have hcw3 : creditWallet (creditWallet users r1 (total * 5 / 100)) r2
      (total * 3 / 100) r3 = some u3 := by
    rw [e1, e2]; exact hx3
  unfold cascadeCommission
  simp only [hu1, hr2, hcw2, hr3, hcw3]
  rw [e1, e2, e3, hr2, hr3]

/-- C4: when a pending order is paid, commissions cascade up the buyer's
referrerId chain to depth exactly 3: the level-1 referrer's wallet grows
by 5% of the order total, level-2 by 3%, level-3 by 1%; every other user
(in particular a level-4 ancestor) is untouched; a missing referrerId or
a missing user at any hop terminates the walk without error; and
re-delivering the payment (calling pay again on the resulting state)
fails with AlreadyPaid and changes nothing. -/
theorem c4_commission_cascade (st : State) (orderId : Nat) (o : Order)
    (buyer u1 u2 u3 : User) (r1 r2 r3 : Nat)
    (ho : st.orders orderId = some o)
    (hunpaid : o.paymentStatus ≠ .paid)
    (hbuyer : st.users o.userId = some buyer)
    (hr1 : buyer.referrerId = some r1) (hu1 : st.users r1 = some u1)
    (hr2 : u1.referrerId = some r2) (hu2 : st.users r2 = some u2)
    (hr3 : u2.referrerId = some r3) (hu3 : st.users r3 = some u3)
    (hne1 : r1 ≠ o.userId) (hne2 : r2 ≠ o.userId) (hne3 : r3 ≠ o.userId)
    (hne12 : r2 ≠ r1) (hne13 : r3 ≠ r1) (hne23 : r3 ≠ r2) :
    (payOrder st orderId).1 =
      .ok ({ o with status := .paid, paymentStatus := .paid },
           pointsEarned o.amount.total) ∧
    ((payOrder st orderId).2.users r1).map (fun u => u.wallet) =
      some (u1.wallet + o.amount.total * 5 / 100) ∧
    ((payOrder st orderId).2.users r2).map (fun u => u.wallet) =
      some (u2.wallet + o.amount.total * 3 / 100) ∧
    ((payOrder st orderId).2.users r3).map (fun u => u.wallet) =
      some (u3.wallet + o.amount.total * 1 / 100) ∧
    (∀ uid, uid ≠ o.userId → uid ≠ r1 → uid ≠ r2 → uid ≠ r3 →
      (payOrder st orderId).2.users uid = st.users uid) ∧
    payOrder (payOrder st orderId).2 orderId =
      (.error .alreadyPaid, (payOrder st orderId).2) ∧
    (∀ us t, cascadeCommission us none t = us) ∧
    (∀ us t r, us r = none → cascadeCommission us (some r) t = us) := by
  have husers0_r1 : setMap st.users o.userId
      { points := buyer.points + pointsEarned o.amount.total,
        wallet := buyer.wallet, referrerId := some r1 } r1 = some u1 := by
    rw [setMap_other _ _ _ _ hne1, hu1]
  have husers0_r2 : setMap st.users o.userId
      { points := buyer.points + pointsEarned o.amount.total,
        wallet := buyer.wallet, referrerId := some r1 } r2 = some u2 := by
    rw [setMap_other _ _ _ _ hne2, hu2]
  have husers0_r3 : setMap st.users o.userId
      { points := buyer.points + pointsEarned o.amount.total,
        wallet := buyer.wallet, referrerId := some r1 } r3 = some u3 := by
    rw [setMap_other _ _ _ _ hne3, hu3]
  have hpay : payOrder st orderId =
      (.ok ({ o with status := .paid, paymentStatus := .paid },
            pointsEarned o.amount.total),
       { st with
           orders := setMap st.orders orderId
             { o with status := .paid, paymentStatus := .paid },
           users := cascadeCommission
             (setMap st.users o.userId
               { buyer with points := buyer.points + pointsEarned o.amount.total })
             buyer.referrerId o.amount.total }) := by
    unfold payOrder
    rw [ho]
    simp only [if_neg hunpaid, hbuyer]
  have hch := cascadeCommission_chain
    (setMap st.users o.userId
      { points := buyer.points + pointsEarned o.amount.total,
        wallet := buyer.wallet, referrerId := some r1 })
    o.amount.total r1 r2 r3 u1 u2 u3
    husers0_r1 hr2 husers0_r2 hr3 husers0_r3 hne12 hne13 hne23
  refine ⟨?_, ?_, ?_, ?_, ?_, ?_, ?_, ?_⟩
  · rw [hpay]
  · rw [hpay]
    dsimp only
    rw [hr1, hch, setMap_other _ _ _ _ (Ne.symm hne13),
        setMap_other _ _ _ _ (Ne.symm hne12), setMap_same]
    rfl
  · rw [hpay]
    dsimp only
    rw [hr1, hch, setMap_other _ _ _ _ (Ne.symm hne23), setMap_same]
    rfl
  · rw [hpay]
    dsimp only
    rw [hr1, hch, setMap_same]
    rfl
  · intro uid huid0 huid1 huid2 huid3
    rw [hpay]
    dsimp only
    rw [hr1, hch, setMap_other _ _ _ _ huid3, setMap_other _ _ _ _ huid2,
        setMap_other _ _ _ _ huid1, setMap_other _ _ _ _ huid0]
  · rw [hpay]
    unfold payOrder
    simp only [setMap_same, if_true]
  · intro us t
    rfl
  · intro us t r h
    unfold cascadeCommission
    simp only [h]

/-- C4 witness: on the concrete 5-user chain with order total 1000,
paying order 1 raises wallet of user 11 from 100 to 150, user 12 from
200 to 230, user 13 from 300 to 310, leaves user 14 untouched, and a
second pay call fails with AlreadyPaid leaving the state unchanged. -/
theorem c4_commission_cascade_witness :
    ((payOrder chainState 1).2.users 11).map (fun u => u.wallet) = some 150 ∧
    ((payOrder chainState 1).2.users 12).map (fun u => u.wallet) = some 230 ∧
    ((payOrder chainState 1).2.users 13).map (fun u => u.wallet) = some 310 ∧
    (payOrder chainState 1).2.users 14 = chainState.users 14 ∧
    payOrder (payOrder chainState 1).2 1 =
      (.error .alreadyPaid, (payOrder chainState 1).2) := by
  have h := c4_commission_cascade chainState 1 chainOrder
    chainBuyer referrer1 referrer2 referrer3 11 12 13
    rfl (by decide) rfl rfl rfl rfl rfl rfl rfl
    (by decide) (by decide) (by decide) (by decide) (by decide) (by decide)
  refine ⟨?_, ?_, ?_, ?_, h.2.2.2.2.2.1⟩
  · rw [h.2.1]; decide
  · rw [h.2.2.1]; decide
  · rw [h.2.2.2.1]; decide
  · exact h.2.2.2.2.1 14 (by decide) (by decide) (by decide) (by decide)

/-- A fully admitted purchase in explicit form. -/
theorem purchaseFlashSale_ok (fs : FlashSale) (now userId qty : Nat)
    (h1 : ¬ now < fs.startTime) (h2 : ¬ fs.endTime < now)
    (h3 : ¬ fs.inventory < fs.soldCount + qty)
    (h4 : ¬ fs.limitPerUser < fs.participants userId + qty) :
    purchaseFlashSale fs now userId qty =
      .ok (mkFlashSaleOrder fs userId qty,
        { fs with
            soldCount := fs.soldCount + qty
            participants := fun u =>
              if u = userId then fs.participants userId + qty
              else fs.participants u }) := by
  unfold purchaseFlashSale
  simp [h1, h2, h3, h4]

theorem purchase_fsInv (fs : FlashSale) (now userId qty : Nat) (h : FsInv fs) :
    ∀ r, purchaseFlashSale fs now userId qty = .ok r → FsInv r.2 := by
  intro r hr
  unfold purchaseFlashSale at hr
  by_cases h1 : now < fs.startTime
  · simp [h1] at hr
  · by_cases h2 : fs.endTime < now
    · simp [h1, h2] at hr
    · by_cases h3 : fs.inventory < fs.soldCount + qty
      · simp [h1, h2, h3] at hr
      · by_cases h4 : fs.limitPerUser < fs.participants userId + qty
        · simp [h1, h2, h3, h4] at hr
        · simp only [if_neg h1, if_neg h2, if_neg h3, if_neg h4] at hr
          injection hr with hr
          subst hr
          refine ⟨by simp; omega, ?_⟩
          intro u
          by_cases hu : u = userId
          · subst hu; simp; omega
          · simpa [hu] using h.2 u

theorem runPurchases_fsInv (reqs : List (Nat × Nat × Nat)) :
    ∀ fs, FsInv fs → FsInv (runPurchases fs reqs) := by
  induction reqs with
  | nil => intro fs h; simpa [runPurchases] using h
  | cons req rest ih =>
    intro fs h
    rcases req with ⟨now, userId, qty⟩
    rw [runPurchases]
    cases hp : purchaseFlashSale fs now userId qty with
    | ok r => exact ih r.2 (purchase_fsInv fs now userId qty h r hp)
    | error e => exact ih fs h

/-- C6: flash-sale admission control.  A purchase fails with
PromotionNotStarted / PromotionEnded outside [startTime, endTime]; inside
the window it fails with InsufficientStock when soldCount + qty would
exceed inventory, then with QuotaExceeded when the user's purchased
quantity + qty would exceed limitPerUser; on success soldCount and the
user's purchased quantity each grow by qty.  Consequently, from any
state satisfying soldCount ≤ inventory and purchased ≤ limitPerUser for
every user (in particular a fresh sale), any sequence of purchase
attempts preserves both bounds; and with limitPerUser = 1, a second
sequential qty = 1 purchase by the same user fails with QuotaExceeded
(provided stock admits it, so the quota check is the one that fires). -/
theorem c6_flash_sale_admission :
    (∀ fs now userId qty, now < fs.startTime →
      purchaseFlashSale fs now userId qty = .error .promotionNotStarted) ∧
    (∀ fs now userId qty, ¬ now < fs.startTime → fs.endTime < now →
      purchaseFlashSale fs now userId qty = .error .promotionEnded) ∧
    (∀ fs now userId qty, ¬ now < fs.startTime → ¬ fs.endTime < now →
      fs.inventory < fs.soldCount + qty →
      purchaseFlashSale fs now userId qty = .error .insufficientStock) ∧
    (∀ fs now userId qty, ¬ now < fs.startTime → ¬ fs.endTime < now →
      ¬ fs.inventory < fs.soldCount + qty →
      fs.limitPerUser < fs.participants userId + qty →
      purchaseFlashSale fs now userId qty = .error .quotaExceeded) ∧
    (∀ fs now userId qty r, purchaseFlashSale fs now userId qty = .ok r →
      r.2.soldCount = fs.soldCount + qty ∧
      r.2.participants userId = fs.participants userId + qty ∧
      r.1 = mkFlashSaleOrder fs userId qty) ∧
    (∀ fs reqs, fs.soldCount ≤ fs.inventory →
      (∀ u, fs.participants u ≤ fs.limitPerUser) →
      (runPurchases fs reqs).soldCount ≤ (runPurchases fs reqs).inventory ∧
      ∀ u, (runPurchases fs reqs).participants u ≤
        (runPurchases fs reqs).limitPerUser) ∧
    (∀ fs now userId, fs.limitPerUser = 1 → ¬ now < fs.startTime →
      ¬ fs.endTime < now → ¬ fs.inventory < fs.soldCount + 2 →
      ∀ r, purchaseFlashSale fs now userId 1 = .ok r →
        purchaseFlashSale r.2 now userId 1 = .error .quotaExceeded) := by
  refine ⟨?_, ?_, ?_, ?_, ?_, ?_, ?_⟩
  · intro fs now userId qty h1
    unfold purchaseFlashSale
    simp [h1]
  · intro fs now userId qty h1 h2
    unfold purchaseFlashSale
    simp [h1, h2]
  · intro fs now userId qty h1 h2 h3
    unfold purchaseFlashSale
    simp [h1, h2, h3]
  · intro fs now userId qty h1 h2 h3 h4
    unfold purchaseFlashSale
    simp [h1, h2, h3, h4]
  · intro fs now userId qty r hr
    unfold purchaseFlashSale at hr
    by_cases h1 : now < fs.startTime
    · simp [h1] at hr
    · by_cases h2 : fs.endTime < now
      · simp [h1, h2] at hr
      · by_cases h3 : fs.inventory < fs.soldCount + qty
        · simp [h1, h2, h3] at hr
        · by_cases h4 : fs.limitPerUser < fs.participants userId + qty
          · simp [h1, h2, h3, h4] at hr
          · simp only [if_neg h1, if_neg h2, if_neg h3, if_neg h4] at hr
            injection hr with hr
            subst hr
            refine ⟨rfl, by simp, rfl⟩
  · intro fs reqs h1 h2
    exact runPurchases_fsInv reqs fs ⟨h1, h2⟩
  · intro fs now userId hlim h1 h2 hstock r hr
    have h3 : ¬ fs.inventory < fs.soldCount + 1 := by omega
    have h4 : ¬ fs.limitPerUser < fs.participants userId + 1 := by
      intro hcon
      have hq : purchaseFlashSale fs now userId 1 = .error .quotaExceeded := by
        unfold purchaseFlashSale
        simp [h1, h2, h3, hcon]
      rw [hq] at hr
      simp at hr
    rw [purchaseFlashSale_ok fs now userId 1 h1 h2 h3 h4] at hr
    injection hr with hr
    subst hr
    have e1 : ¬ fs.inventory < fs.soldCount + 1 + 1 := by omega
    have e2 : fs.limitPerUser < fs.participants userId + 1 + 1 := by omega
    unfold purchaseFlashSale
    simp [h1, h2, e1, e2]

/-- C6 witness: the concrete sale exhibits each admission outcome, the
invariant after a two-purchase run, and the quota failure of a second
qty = 1 purchase by the same user. -/
theorem c6_flash_sale_admission_witness :
    purchaseFlashSale saleA 5 7 1 = .error .promotionNotStarted ∧
    purchaseFlashSale saleA 25 7 1 = .error .promotionEnded ∧
    purchaseFlashSale saleA 15 7 6 = .error .insufficientStock ∧
    purchaseFlashSale saleA 15 7 2 = .error .quotaExceeded ∧
    (runPurchases saleA [(15, 7, 1), (15, 8, 1)]).soldCount ≤
      (runPurchases saleA [(15, 7, 1), (15, 8, 1)]).inventory ∧
    purchaseFlashSale saleA1 15 7 1 = .error .quotaExceeded := by
  have hok : purchaseFlashSale saleA 15 7 1 =
      .ok (mkFlashSaleOrder saleA 7 1, saleA1) := by rfl
  exact ⟨c6_flash_sale_admission.1 saleA 5 7 1 (by decide),
    c6_flash_sale_admission.2.1 saleA 25 7 1 (by decide) (by decide),
    c6_flash_sale_admission.2.2.1 saleA 15 7 6 (by decide) (by decide) (by decide),
    c6_flash_sale_admission.2.2.2.1 saleA 15 7 2 (by decide) (by decide)
      (by decide) (by decide),
    (c6_flash_sale_admission.2.2.2.2.2.1 saleA [(15, 7, 1), (15, 8, 1)]
      (by decide) (fun u => Nat.zero_le 1)).1,
    c6_flash_sale_admission.2.2.2.2.2.2 saleA 15 7 rfl (by decide) (by decide)
      (by decide) (mkFlashSaleOrder saleA 7 1, saleA1) hok⟩

theorem joinGroup_not_recruiting (gp op : ℚ) (pid : Nat) (g : Group)
    (userId qty : Nat) (hs : g.status ≠ .recruiting) :
    joinGroup gp op pid g userId qty = .error .groupUnavailable := by
  unfold joinGroup
  simp [hs]

theorem joinGroup_ok_complete (gp op : ℚ) (pid : Nat) (g : Group)
    (userId qty : Nat) (hs : g.status = .recruiting)
    (hdup : (g.participants.find? (fun p => p.userId = userId)).isSome = false)
    (hfull : g.requiredSize ≤ g.currentSize + 1) :
    joinGroup gp op pid g userId qty =
      .ok ({ requiredSize := g.requiredSize, currentSize := g.currentSize + 1,
             participants := g.participants ++ [Participant.mk userId qty],
             status := .completed },
           (g.participants ++ [Participant.mk userId qty]).map (mkGroupOrder gp op pid),
           (g.participants ++ [Participant.mk userId qty]).map (fun p => p.userId)) := by
  unfold joinGroup
  simp [hs, hdup, hfull]

theorem joinGroup_ok_incomplete (gp op : ℚ) (pid : Nat) (g : Group)
    (userId qty : Nat) (hs : g.status = .recruiting)
    (hdup : (g.participants.find? (fun p => p.userId = userId)).isSome = false)
    (hfull : ¬ g.requiredSize ≤ g.currentSize + 1) :
    joinGroup gp op pid g userId qty =
      .ok ({ requiredSize := g.requiredSize, currentSize := g.currentSize + 1,
             participants := g.participants ++ [Participant.mk userId qty],
             status := .recruiting },
           [], []) := by
  unfold joinGroup
  simp [hs, hdup, hfull]

theorem joinGroup_gbInv (gp op : ℚ) (pid : Nat) (g : Group)
    (orders : List Order) (notifs : List Nat) (userId qty : Nat)
    (h : GbInv gp op pid g orders notifs) :
    ∀ r, joinGroup gp op pid g userId qty = .ok r →
      GbInv gp op pid r.1 (orders ++ r.2.1) (notifs ++ r.2.2) := by
  intro r hr
  obtain ⟨hlen, hrec, hcom, hexp⟩ := h
  by_cases hs : g.status = .recruiting
  · obtain ⟨ho, hn, hlt⟩ := hrec hs
    subst ho
    subst hn
    by_cases hdup : (g.participants.find? (fun p => p.userId = userId)).isSome
    · unfold joinGroup at hr
      simp [hs, hdup] at hr
    · have hdup2 : (g.participants.find? (fun p => p.userId = userId)).isSome = false := by
        simpa using hdup
      by_cases hfull : g.requiredSize ≤ g.currentSize + 1
      · rw [joinGroup_ok_complete gp op pid g userId qty hs hdup2 hfull] at hr
        injection hr with hr
        subst hr
        refine ⟨by simp [hlen], ?_, ?_, ?_⟩
        · intro hcontra; simp at hcontra
        · intro _
          refine ⟨by simp; omega, by simp, by simp⟩
        · intro hcontra; simp at hcontra
      · rw [joinGroup_ok_incomplete gp op pid g userId qty hs hdup2 hfull] at hr
        injection hr with hr
        subst hr
        refine ⟨by simp [hlen], ?_, ?_, ?_⟩
        · intro _
          exact ⟨by simp, by simp, by simp; omega⟩
        · intro hcontra; simp at hcontra
        · intro hcontra; simp at hcontra
  · rw [joinGroup_not_recruiting gp op pid g userId qty hs] at hr
    simp at hr

theorem joinGroup_requiredSize (gp op : ℚ) (pid : Nat) (g : Group)
    (userId qty : Nat) :
    ∀ r, joinGroup gp op pid g userId qty = .ok r →
      r.1.requiredSize = g.requiredSize := by
  intro r hr
  unfold joinGroup at hr
  by_cases hs : g.status ≠ .recruiting
  · simp [hs] at hr
  · by_cases hdup : (g.participants.find? (fun p => p.userId = userId)).isSome
    · simp [hs, hdup] at hr
    · by_cases hfull : g.requiredSize ≤ g.currentSize + 1
      · simp only [if_neg hs, hdup, Bool.false_eq_true, if_false, if_pos hfull] at hr
        injection hr with hr
        subst hr
        rfl
      · simp only [if_neg hs, hdup, Bool.false_eq_true, if_false, if_neg hfull] at hr
        injection hr with hr
        subst hr
        rfl

theorem runJoins_gbInv (gp op : ℚ) (pid : Nat) (reqs : List (Nat × Nat)) :
    ∀ g orders notifs, GbInv gp op pid g orders notifs →
      GbInv gp op pid (runJoins gp op pid g orders notifs reqs).1
        (runJoins gp op pid g orders notifs reqs).2.1
        (runJoins gp op pid g orders notifs reqs).2.2 := by
  induction reqs with
  | nil => intro g orders notifs h; simpa [runJoins] using h
  | cons req rest ih =>
    intro g orders notifs h
    rcases req with ⟨userId, qty⟩
    rw [runJoins]
    cases hj : joinGroup gp op pid g userId qty with
    | ok r =>
      exact ih r.1 (orders ++ r.2.1) (notifs ++ r.2.2)
        (joinGroup_gbInv gp op pid g orders notifs userId qty h r hj)
    | error e => exact ih g orders notifs h

theorem runJoins_requiredSize (gp op : ℚ) (pid : Nat) (reqs : List (Nat × Nat)) :
    ∀ g orders notifs,
      (runJoins gp op pid g orders notifs reqs).1.requiredSize = g.requiredSize := by
  induction reqs with
  | nil => intro g orders notifs; simp [runJoins]
  | cons req rest ih =>
    intro g orders notifs
    rcases req with ⟨userId, qty⟩
    rw [runJoins]
    cases hj : joinGroup gp op pid g userId qty with
    | ok r =>
      rw [ih r.1 (orders ++ r.2.1) (notifs ++ r.2.2)]
      exact joinGroup_requiredSize gp op pid g userId qty r hj
    | error e => exact ih g orders notifs

/-- C7: starting from a fresh group of required size n ≥ 1, after any
sequence of join attempts: if the group is completed then exactly n
orders and n notifications were produced — one per participant, the
order list being precisely the per-participant fan-out (each order
priced groupPrice × that participant's quantity, addressed to that
participant) — and currentSize = n; if it is still recruiting, no orders
were produced and currentSize < n; any join against a completed group
fails with the group-unavailable error, so completion can happen only
once (once completed, no join ever fans out again). -/
theorem c7_group_completion_fanout (gp op : ℚ) (pid n : Nat)
    (reqs : List (Nat × Nat)) (g1 : Group) (orders : List Order)
    (notifs : List Nat) (hn : 1 ≤ n)
    (hrun : runJoins gp op pid (freshGroup n) [] [] reqs = (g1, orders, notifs)) :
    (g1.status = .completed →
      orders.length = n ∧ notifs.length = n ∧
      orders = g1.participants.map (mkGroupOrder gp op pid) ∧
      notifs = g1.participants.map (fun p => p.userId) ∧
      g1.currentSize = n ∧ g1.participants.length = n) ∧
    (g1.status = .recruiting →
      orders = [] ∧ notifs = [] ∧ g1.currentSize < n) ∧
    (∀ g userId qty, g.status = .completed →
      joinGroup gp op pid g userId qty = .error .groupUnavailable) ∧
    (∀ p, (mkGroupOrder gp op pid p).amount.total = gp * (p.quantity : ℚ) ∧
      (mkGroupOrder gp op pid p).userId = p.userId) := by
  have hfresh : GbInv gp op pid (freshGroup n) [] [] := by
    refine ⟨rfl, fun _ => ⟨rfl, rfl, hn⟩, fun hcontra => ?_, fun hcontra => ?_⟩
    · simp [freshGroup] at hcontra
    · simp [freshGroup] at hcontra
  have hinv := runJoins_gbInv gp op pid reqs (freshGroup n) [] [] hfresh
  have hreq := runJoins_requiredSize gp op pid reqs (freshGroup n) [] []
  rw [hrun] at hinv hreq
  dsimp only at hinv hreq
  obtain ⟨hlen, hrec, hcom, hexp⟩ := hinv
  have hreq1 : g1.requiredSize = n := hreq
  refine ⟨?_, ?_, ?_, ?_⟩
  · intro hc
    obtain ⟨hcur, ho, hno⟩ := hcom hc
    have hplen : g1.participants.length = n := by omega
    exact ⟨by rw [ho]; simp [hplen], by rw [hno]; simp [hplen], ho, hno,
      by omega, hplen⟩
  · intro hc
    obtain ⟨ho, hno, hlt⟩ := hrec hc
    exact ⟨ho, hno, by omega⟩
  · intro g userId qty hc
    apply joinGroup_not_recruiting
    rw [hc]
    simp
  · intro p
    exact ⟨rfl, rfl⟩

/-- C7 witness: a fresh group of required size 3, joined by users 7, 8
and 9, becomes completed with exactly 3 orders and 3 notifications. -/
theorem c7_group_completion_fanout_witness :
    (runJoins 80 100 1 (freshGroup 3) [] [] [(7, 1), (8, 1), (9, 2)]).1.status =
      .completed ∧
    (runJoins 80 100 1 (freshGroup 3) [] [] [(7, 1), (8, 1), (9, 2)]).2.1.length = 3 ∧
    (runJoins 80 100 1 (freshGroup 3) [] [] [(7, 1), (8, 1), (9, 2)]).2.2.length = 3 := by
  have h := c7_group_completion_fanout 80 100 1 3 [(7, 1), (8, 1), (9, 2)]
    (runJoins 80 100 1 (freshGroup 3) [] [] [(7, 1), (8, 1), (9, 2)]).1
    (runJoins 80 100 1 (freshGroup 3) [] [] [(7, 1), (8, 1), (9, 2)]).2.1
    (runJoins 80 100 1 (freshGroup 3) [] [] [(7, 1), (8, 1), (9, 2)]).2.2
    (by decide) rfl
  have hst : (runJoins 80 100 1 (freshGroup 3) [] [] [(7, 1), (8, 1), (9, 2)]).1.status =
      .completed := by decide
  exact ⟨hst, (h.1 hst).1, (h.1 hst).2.1⟩

/-- C8 counterexample: (i) coupon 5 has maxUsage 1, yet two order
creations both redeem it and drive usageCount to 2 — the code never
checks usageCount against maxUsage; (ii) redeeming the 150% coupon on a
subtotal of 200 yields discount 300, exceeding the claimed bound
min(computed, maxDiscount, subtotal) = 200 — the percentage branch never
clamps to the subtotal. -/
theorem c8_counterexample_usage_and_discount :
    ((createOrder (createOrder couponState .customer 7
        [{ productId := 1, quantity := 1 }] (some 5) 1).2 .customer 8
        [{ productId := 1, quantity := 1 }] (some 5) 2).2.coupons.map
      (fun c => c.usageCount)) = [2, 0] ∧
    couponHalf.maxUsage = 1 ∧
    ((createOrder couponState .customer 7
        [{ productId := 1, quantity := 1 }] (some 6) 1).1.toOption.map
      (fun o => (o.amount.subtotal, o.amount.discount))) = some (200, 300) := by
  refine ⟨by decide, by decide, by decide⟩

/-- C8 (amended): the usageCount ≤ maxUsage bound does NOT hold (no
check exists; see the counterexample).  The discount bound holds in this
form: a fixed coupon discounts at most min(value, subtotal); a
percentage coupon whose value is ≤ 100 and whose stored maxDiscount is
not 0 (the code reads maxDiscount through JavaScript falsiness, so a
stored 0 disables the cap) discounts at most
min(computed, maxDiscount, subtotal); consequently, when every coupon in
the table is of that shape, the discount the order-creation route
applies never exceeds the subtotal; the order records
discount = redeemCoupon's result and total = subtotal − discount; and
the spec's concrete instance (value 50, maxDiscount 50, subtotal 1000)
yields discount 50, not 500. -/
theorem c8_discount_bounds :
    (∀ c s, 0 ≤ s → c.ctype = CouponType.fixed →
      computeDiscount c s ≤ min c.value s) ∧
    (∀ c s m, 0 ≤ s → c.ctype = CouponType.percentage → c.value ≤ 100 →
      c.maxDiscount = some m → ¬ m = 0 →
      computeDiscount c s ≤ min (s * c.value / 100) (min m s)) ∧
    (∀ c s, 0 ≤ s → c.ctype = CouponType.percentage → c.value ≤ 100 →
      c.maxDiscount = none →
      computeDiscount c s ≤ min (s * c.value / 100) s) ∧
    (∀ code s cs, 0 ≤ s →
      (∀ c ∈ cs, c.ctype = CouponType.fixed ∨
        (c.value ≤ 100 ∧ c.maxDiscount ≠ some 0)) →
      (redeemCoupon code s cs).1 ≤ s) ∧
    (∀ st role userId items code orderId o st1,
      createOrder st role userId items (some code) orderId = (.ok o, st1) →
      o.amount.discount = (redeemCoupon code o.amount.subtotal st.coupons).1 ∧
      o.amount.total = o.amount.subtotal - o.amount.discount) ∧
    ((createOrder couponClampState .customer 7 [{ productId := 1, quantity := 1 }]
        (some 5) 1).1.toOption.map (fun o => o.amount.discount) = some 50) := by
  have hpct : ∀ (s v : ℚ), 0 ≤ s → v ≤ 100 → s * v / 100 ≤ s := by
    intro s v hs hv
    rw [div_le_iff₀ (by norm_num : (0:ℚ) < 100)]
    nlinarith
  have hcd : ∀ c (s : ℚ), 0 ≤ s →
      (c.ctype = CouponType.fixed ∨ (c.value ≤ 100 ∧ c.maxDiscount ≠ some 0)) →
      computeDiscount c s ≤ s := by
    intro c s hs hsane
    unfold computeDiscount
    cases hct : c.ctype with
    | fixed => exact min_le_right _ _
    | percentage =>
      rcases hsane with hf | ⟨hv, hmd⟩
      · rw [hct] at hf; cases hf
      · cases hmdc : c.maxDiscount with
        | none => exact hpct s c.value hs hv
        | some m =>
          have hm0 : ¬ m = 0 := by
            intro h0
            exact hmd (by rw [hmdc, h0])
          simp only [if_neg hm0]
          exact (min_le_left _ _).trans (hpct s c.value hs hv)
  refine ⟨?_, ?_, ?_, ?_, ?_, ?_⟩
  · intro c s hs hf
    simp [computeDiscount, hf]
  · intro c s m hs hp hv hmd hm0
    have hle := hpct s c.value hs hv
    simp only [computeDiscount, hp, hmd, if_neg hm0]
    exact le_min (min_le_left _ _)
      (le_min (min_le_right _ _) ((min_le_left _ _).trans hle))
  · intro c s hs hp hv hmd
    simp only [computeDiscount, hp, hmd]
    exact le_min le_rfl (hpct s c.value hs hv)
  · intro code s cs hs
    induction cs with
    | nil =>
      intro _
      simpa [redeemCoupon] using hs
    | cons c rest ih =>
      intro hsane
      rw [redeemCoupon]
      by_cases hc : c.code = code ∧ c.active = true
      · simp only [if_pos hc]
        by_cases hmin : c.minAmount ≤ s
        · simp only [if_pos hmin]
          exact hcd c s hs (hsane c (by simp))
        · simpa [hmin] using hs
      · simp only [if_neg hc]
        exact ih (fun c2 hc2 => hsane c2 (by simp [hc2]))
  · intro st role userId items code orderId o st1 hco
    unfold createOrder at hco
    by_cases hempty : items = []
    · simp [hempty] at hco
    · simp only [if_neg hempty] at hco
      rcases hres : reserveLoop role st.products items with ⟨e, products1⟩
      rw [hres] at hco
      cases e with
      | error err => simp at hco
      | ok v =>
        injection hco with hco1 hco2
        injection hco1 with hco1
        subst hco1
        exact ⟨rfl, rfl⟩
  · decide

/-- C8 witness: concrete instantiations of the bound conjuncts — a fixed
coupon of value 10 on subtotal 100 stays within min(10, 100), and
redeeming coupon 5 on subtotal 200 discounts at most 200. -/
theorem c8_discount_bounds_witness :
    computeDiscount
      { code := 9, ctype := .fixed, value := 10, minAmount := 0,
        maxDiscount := none, maxUsage := 5, usageCount := 0, active := true }
      100 ≤ min 10 100 ∧
    (redeemCoupon 5 200 [couponHalf]).1 ≤ 200 := by
  exact ⟨c8_discount_bounds.1 _ 100 (by decide) rfl,
         c8_discount_bounds.2.2.2.1 5 200 [couponHalf] (by decide) (by decide)⟩

/-- On a successful reservation loop the line totals sum to the returned
subtotal. -/
theorem reserveLoop_sum (role : Role) :
    ∀ (items : List CreateItem) (products : Nat → Option Product) ois subtotal products1,
      reserveLoop role products items = (.ok (ois, subtotal), products1) →
      (ois.map (fun it => it.total)).sum = subtotal := by
  intro items
  induction items with
  | nil =>
    intro products ois subtotal products1 h
    rw [reserveLoop] at h
    injection h with h1 h2
    injection h1 with h1
    injection h1 with h1a h1b
    subst h1a
    subst h1b
    simp
  | cons item rest ih =>
    intro products ois subtotal products1 h
    rw [reserveLoop] at h
    cases hp : products item.productId with
    | none => rw [hp] at h; simp at h
    | some p =>
      rw [hp] at h
      by_cases hav : p.inventory.available < (item.quantity : Int)
      · simp [hav] at h
      · simp only [if_neg hav] at h
        rcases hrec : reserveLoop role (setMap products item.productId
            { p with inventory := reserveItem p.inventory item.quantity }) rest with ⟨e, p2⟩
        rw [hrec] at h
        cases e with
        | error err => simp at h
        | ok v =>
          injection h with h1 h2
          injection h1 with h1
          injection h1 with h1a h1b
          subst h1a
          subst h1b
          have := ih _ v.1 v.2 p2 (by rw [hrec])
          simp [this]

/-- A successful flash-sale purchase returns exactly the promotional
order of mkFlashSaleOrder. -/
theorem purchaseFlashSale_ok_shape (fs : FlashSale) (now userId qty : Nat) :
    ∀ r, purchaseFlashSale fs now userId qty = .ok r →
      r.1 = mkFlashSaleOrder fs userId qty := by
  intro r hr
  unfold purchaseFlashSale at hr
  by_cases h1 : now < fs.startTime
  · simp [h1] at hr
  · by_cases h2 : fs.endTime < now
    · simp [h1, h2] at hr
    · by_cases h3 : fs.inventory < fs.soldCount + qty
      · simp [h1, h2, h3] at hr
      · by_cases h4 : fs.limitPerUser < fs.participants userId + qty
        · simp [h1, h2, h3, h4] at hr
        · simp only [if_neg h1, if_neg h2, if_neg h3, if_neg h4] at hr
          injection hr with hr
          subst hr
          rfl

/-- C9 counterexample: the order created by a flash-sale purchase
(original price 100, sale price 80, qty 1) has amount.total = 80 but
amount.subtotal − amount.discount = 80 − 20 = 60: the claimed identity
total = subtotal − discount fails for promotional orders, whose discount
field records the markdown against the original price without being
subtracted. -/
theorem c9_counterexample_flash_sale_total :
    ((purchaseFlashSale saleA 15 7 1).toOption.map
      (fun r => (r.1.amount.total, r.1.amount.subtotal - r.1.amount.discount))) =
      some (80, 60) ∧ (80 : ℚ) ≠ 60 := by
  refine ⟨by decide, by decide⟩

/-- C9 (amended): direct orders (POST /) satisfy both claimed identities:
amount.total = amount.subtotal − amount.discount and the line totals sum
to amount.subtotal.  Flash-sale and group-buy orders satisfy the
line-sum identity but NOT the subtraction identity: for them
amount.total = amount.subtotal, while amount.discount records the
promotional markdown (originalPrice − salePrice, resp.
originalPrice − groupPrice, times quantity) and is not subtracted. -/
theorem c9_amount_consistency :
    (∀ st role userId items couponCode orderId o st1,
      createOrder st role userId items couponCode orderId = (.ok o, st1) →
      o.amount.total = o.amount.subtotal - o.amount.discount ∧
      (o.items.map (fun it => it.total)).sum = o.amount.subtotal) ∧
    (∀ fs now userId qty r, purchaseFlashSale fs now userId qty = .ok r →
      r.1.amount.total = r.1.amount.subtotal ∧
      r.1.amount.discount = (fs.originalPrice - fs.salePrice) * (qty : ℚ) ∧
      (r.1.items.map (fun it => it.total)).sum = r.1.amount.subtotal) ∧
    (∀ gp op pid p, (mkGroupOrder gp op pid p).amount.total =
        (mkGroupOrder gp op pid p).amount.subtotal ∧
      (mkGroupOrder gp op pid p).amount.discount =
        (op - gp) * (p.quantity : ℚ) ∧
      ((mkGroupOrder gp op pid p).items.map (fun it => it.total)).sum =
        (mkGroupOrder gp op pid p).amount.subtotal) := by
  refine ⟨?_, ?_, ?_⟩
  · intro st role userId items couponCode orderId o st1 hco
    unfold createOrder at hco
    by_cases hempty : items = []
    · simp [hempty] at hco
    · simp only [if_neg hempty] at hco
      rcases hres : reserveLoop role st.products items with ⟨e, products1⟩
      rw [hres] at hco
      cases e with
      | error err => simp at hco
      | ok v =>
        injection hco with hco1 hco2
        injection hco1 with hco1
        subst hco1
        exact ⟨rfl, reserveLoop_sum role items st.products v.1 v.2 products1 (by rw [hres])⟩
  · intro fs now userId qty r hr
    rw [purchaseFlashSale_ok_shape fs now userId qty r hr]
    refine ⟨rfl, rfl, by simp [mkFlashSaleOrder]⟩
  · intro gp op pid p
    refine ⟨rfl, rfl, by simp [mkGroupOrder]⟩

/-- C9 witness: the identities hold on the concrete clamp order
(direct: 950 = 1000 − 50) and the concrete flash-sale order
(total 80 = subtotal 80). -/
theorem c9_amount_consistency_witness :
    ((createOrder couponClampState .customer 7 [{ productId := 1, quantity := 1 }]
        (some 5) 1).1.toOption.map
      (fun o => decide (o.amount.total = o.amount.subtotal - o.amount.discount))) =
      some true ∧
    saleAOrder.amount.total = saleAOrder.amount.subtotal := by
  have hok : purchaseFlashSale saleA 15 7 1 = .ok (saleAOrder, saleA1) := by rfl
  have hflash := c9_amount_consistency.2.1 saleA 15 7 1 (saleAOrder, saleA1) hok
  have hco : createOrder couponClampState .customer 7 [{ productId := 1, quantity := 1 }]
      (some 5) 1 =
      (.ok { userId := 7,
             items := [{ productId := 1, price := 1000, quantity := 1, total := 1000 }],
             amount := { subtotal := 1000, discount := 50, total := 950 },
             status := .pending, paymentStatus := .unpaid },
       (createOrder couponClampState .customer 7 [{ productId := 1, quantity := 1 }]
        (some 5) 1).2) := by rfl
  have hdir := (c9_amount_consistency.1 couponClampState .customer 7
    [{ productId := 1, quantity := 1 }] (some 5) 1 _ _ hco).1
  refine ⟨?_, hflash.1⟩
  rw [hco]
  simp only [Except.toOption, Option.map_some']
  rw [decide_eq_true hdir]

/-- C10: the unit price of each line item of a direct order depends on
the requesting user's role — distributor price for distributors,
retailer price for retailers, selling price for everyone else — so the
same item list can produce different totals for different buyers. -/
theorem c10_role_based_pricing (st : State) (pid qty oid uid : Nat) (p : Product)
    (hp : st.products pid = some p)
    (hav : (qty : Int) ≤ p.inventory.available) :
    ((createOrder st .distributor uid [{ productId := pid, quantity := qty }]
        none oid).1.toOption.map (fun o => o.amount.total) =
      some (p.price.distributor * (qty : ℚ))) ∧
    ((createOrder st .retailer uid [{ productId := pid, quantity := qty }]
        none oid).1.toOption.map (fun o => o.amount.total) =
      some (p.price.retailer * (qty : ℚ))) ∧
    ((createOrder st .customer uid [{ productId := pid, quantity := qty }]
        none oid).1.toOption.map (fun o => o.amount.total) =
      some (p.price.selling * (qty : ℚ))) ∧
    (∀ role, role ≠ Role.distributor → role ≠ Role.retailer →
      rolePrice role p.price = p.price.selling) := by
  have hres : ∀ role : Role,
      reserveLoop role st.products [{ productId := pid, quantity := qty }] =
      (.ok ([{ productId := pid, price := rolePrice role p.price, quantity := qty,
               total := rolePrice role p.price * (qty : ℚ) }],
            rolePrice role p.price * (qty : ℚ) + 0),
       setMap st.products pid { p with inventory := reserveItem p.inventory qty }) := by
    intro role
    rw [reserveLoop, hp]
    dsimp only
    rw [if_neg (not_lt.mpr hav)]
    rw [reserveLoop]
  have key : ∀ role : Role,
      (createOrder st role uid [{ productId := pid, quantity := qty }]
        none oid).1.toOption.map (fun o => o.amount.total) =
      some (rolePrice role p.price * (qty : ℚ)) := by
    intro role
    unfold createOrder
    rw [if_neg (by simp :
      ¬ ([{ productId := pid, quantity := qty }] : List CreateItem) = []),
      hres role]
    simp
    exact ⟨_, rfl, rfl⟩
  refine ⟨?_, ?_, ?_, ?_⟩
  · simpa [rolePrice] using key .distributor
  · simpa [rolePrice] using key .retailer
  · simpa [rolePrice] using key .customer
  · intro role h1 h2
    cases role with
    | distributor => exact absurd rfl h1
    | retailer => exact absurd rfl h2
    | admin => rfl
    | supplier => rfl
    | customer => rfl

/-- C10 witness: on the one-unit product (selling 10, distributor 9,
retailer 8) the three roles obtain three different totals for the same
single-item cart. -/
theorem c10_role_based_pricing_witness :
    ((createOrder oneProductState .distributor 7
        [{ productId := 1, quantity := 1 }] none 1).1.toOption.map
      (fun o => o.amount.total) = some (oneUnitProduct.price.distributor * 1)) ∧
    ((createOrder oneProductState .retailer 7
        [{ productId := 1, quantity := 1 }] none 1).1.toOption.map
      (fun o => o.amount.total) = some (oneUnitProduct.price.retailer * 1)) ∧
    ((createOrder oneProductState .customer 7
        [{ productId := 1, quantity := 1 }] none 1).1.toOption.map
      (fun o => o.amount.total) = some (oneUnitProduct.price.selling * 1)) ∧
    oneUnitProduct.price.distributor * (1 : ℚ) ≠ oneUnitProduct.price.selling * 1 := by
  have h := c10_role_based_pricing oneProductState 1 1 1 7 oneUnitProduct rfl (by decide)
  exact ⟨h.1, h.2.1, h.2.2.1, by decide⟩

end ECommerce
